import Mathlib

/-!
Verification development for the handson-langchain repository.

The demonstration scripts are shallowly embedded: pure Python helper
functions become Lean functions, numeric values (Python floats) are
modelled as exact rationals, the ambient random source and clock are
passed as explicit arguments, and fallible operations return Option or
Except values.  Python built-ins used by the scripts (str.split,
str.strip, str.title, float(), json.loads, random.randint,
ThreadPoolExecutor) are modelled faithfully on the input subset the
scripts exercise; deviations are noted in the doc comments.
-/

set_option maxRecDepth 4000

/-- Whitespace test used by the models of Python str.split() and
str.strip(): space, tab, carriage return and newline. -/
def isPyWs (c : Char) : Bool :=
  c = ' ' || c = '\t' || c = '\r' || c = '\n'

/-- Model of Python str.split() with no separator: split on runs of
whitespace, dropping empty pieces.  The accumulator holds the current
token in reverse order. -/
def pySplitWsAux : List Char → List Char → List String
  | [], [] => []
  | [], cur => [String.mk cur.reverse]
  | c :: cs, cur =>
    if isPyWs c then
      if cur = [] then pySplitWsAux cs []
      else String.mk cur.reverse :: pySplitWsAux cs []
    else pySplitWsAux cs (c :: cur)

/-- Python str.split() with no argument. -/
def pySplitWs (s : String) : List String :=
  pySplitWsAux s.data []

/-- Index of the first occurrence of pat inside cs, if any. -/
def findSub (cs pat : List Char) : Option Nat :=
  match cs with
  | [] => if pat = [] then some 0 else none
  | _ :: t => if pat.isPrefixOf cs then some 0 else (findSub t pat).map (· + 1)

/-- Model of the Python expression pat in s for strings. -/
def pyContains (s pat : String) : Bool :=
  (findSub s.data pat.data).isSome

/-- Splitting engine for the model of Python str.split(sep) with a
non-empty separator; fuel bounds the recursion and is always sufficient
at s.length + 1 because every step consumes at least one character. -/
def pySplitOnAux : Nat → List Char → List Char → List (List Char)
  | 0, cs, _ => [cs]
  | Nat.succ n, cs, pat =>
    match findSub cs pat with
    | none => [cs]
    | some i => cs.take i :: pySplitOnAux n (cs.drop (i + pat.length)) pat

/-- Model of Python str.split(sep) with a non-empty separator string. -/
def pySplitOn (s pat : String) : List String :=
  (pySplitOnAux (s.length + 1) s.data pat.data).map String.mk

/-- Drop the leading characters satisfying p from both ends of a list. -/
def trimEnds (p : Char → Bool) (cs : List Char) : List Char :=
  ((cs.dropWhile p).reverse.dropWhile p).reverse

/-- Model of Python str.strip() with no argument (strip whitespace from
both ends). -/
def pyStrip (s : String) : String :=
  String.mk (trimEnds isPyWs s.data)

/-- Model of Python str.strip(chars): strip any character of the given
set from both ends. -/
def pyStripSet (s : String) (set : List Char) : String :=
  String.mk (trimEnds (fun c => decide (c ∈ set)) s.data)

/-- Model of Python s.startswith(c) for a single-character argument. -/
def headIs (s : String) (c : Char) : Bool :=
  match s.data with
  | [] => false
  | d :: _ => d = c

/-- Model of Python s.endswith(c) for a single-character argument. -/
def lastIs (s : String) (c : Char) : Bool :=
  match s.data.getLast? with
  | some d => d = c
  | none => false

/-- Model of Python str.lower() on the ASCII subset. -/
def pyLower (s : String) : String :=
  String.mk (s.data.map Char.toLower)

/-- Longest leading run of decimal digits, with the remainder. -/
def spanDigits : List Char → List Char × List Char
  | [] => ([], [])
  | c :: cs =>
    if c.isDigit then
      let p := spanDigits cs
      (c :: p.1, p.2)
    else ([], c :: cs)

/-- Numeric value of a list of decimal digit characters. -/
def digitsVal (ds : List Char) : Nat :=
  ds.foldl (fun acc c => acc * 10 + (c.toNat - 48)) 0

/-- Core of the model of the Python float() builtin on the decimal
literal subset the scripts feed it: optional sign, digits with an
optional fractional part, optional decimal exponent.  Values are exact
rationals.  The inf, nan and underscore forms accepted by Python are
outside the modelled subset and yield none. -/
def parseFloatChars (cs : List Char) : Option ℚ :=
  let signed : Bool × List Char :=
    match cs with
    | '-' :: t => (true, t)
    | '+' :: t => (false, t)
    | _ => (false, cs)
  let ip := spanDigits signed.2
  let fp : Option (List Char × List Char) :=
    match ip.2 with
    | '.' :: t => some (spanDigits t)
    | _ => some ([], ip.2)
  match fp with
  | none => none
  | some (fds, r2) =>
    if ip.1 = [] ∧ fds = [] then none
    else
      let mant : ℚ :=
        if fds = [] then (digitsVal ip.1 : ℚ)
        else (digitsVal ip.1 : ℚ) + (digitsVal fds : ℚ) / (10 : ℚ) ^ fds.length
      let ex : Option (ℚ × List Char) :=
        match r2 with
        | 'e' :: t =>
          match t with
          | '-' :: u => (match spanDigits u with
            | ([], _) => none
            | (eds, r3) => some (mant / (10 : ℚ) ^ digitsVal eds, r3))
          | '+' :: u => (match spanDigits u with
            | ([], _) => none
            | (eds, r3) => some (mant * (10 : ℚ) ^ digitsVal eds, r3))
          | _ => (match spanDigits t with
            | ([], _) => none
            | (eds, r3) => some (mant * (10 : ℚ) ^ digitsVal eds, r3))
        | 'E' :: t =>
          match t with
          | '-' :: u => (match spanDigits u with
            | ([], _) => none
            | (eds, r3) => some (mant / (10 : ℚ) ^ digitsVal eds, r3))
          | '+' :: u => (match spanDigits u with
            | ([], _) => none
            | (eds, r3) => some (mant * (10 : ℚ) ^ digitsVal eds, r3))
          | _ => (match spanDigits t with
            | ([], _) => none
            | (eds, r3) => some (mant * (10 : ℚ) ^ digitsVal eds, r3))
        | _ => some (mant, r2)
      match ex with
      | none => none
      | some (v, r3) =>
        if r3 = [] then some (if signed.1 then -v else v) else none

/-- Model of Python float() applied to a string: surrounding whitespace
is stripped, then the decimal literal is read exactly. -/
def pyFloatString (s : String) : Option ℚ :=
  parseFloatChars (trimEnds isPyWs s.data)

/-- Result of a calculator tool call: Python returns either a number or
an error-message string, and never lets an exception escape. -/
inductive CalcResult where
  | num (v : ℚ) : CalcResult
  | err (msg : String) : CalcResult
deriving DecidableEq

namespace Step2

/-- Error message of step2.py for an expression that does not split into
exactly three whitespace-separated tokens. -/
def formatErrMsg : String :=
  "計算エラー: 式は \x272 + 2\x27 のような形式で入力してください"

/-- Error message of step2.py for an operand float() cannot read. -/
def numErrMsg : String := "計算エラー: 無効な数値です"

/-- Error message of step2.py for division by zero. -/
def divZeroMsg : String := "計算エラー: ゼロによる除算はできません"

/-- Error message of step2.py for an unsupported operator token. -/
def opErrMsg : String := "計算エラー: サポートされていない演算子です"

/-- The multiplication and division sign replacement performed by the
step2.py calculator before splitting; both signs are single characters,
so str.replace is a character map. -/
def pyReplaceOps (s : String) : String :=
  String.mk (s.data.map (fun c => if c = '×' then '*' else if c = '÷' then '/' else c))

/-- The body of the step2.py calculator after the whitespace split: the
token list must have exactly three parts, both operands must parse as
floats (a ValueError is reported as the invalid-number message), and the
operator is dispatched with an explicit zero check before division. -/
def calcParts (parts : List String) : CalcResult :=
  match parts with
  | [s1, sop, s2] =>
    match pyFloatString s1 with
    | none => .err numErrMsg
    | some a =>
      match pyFloatString s2 with
      | none => .err numErrMsg
      | some b =>
        if sop = "+" then .num (a + b)
        else if sop = "-" then .num (a - b)
        else if sop = "*" then .num (a * b)
        else if sop = "/" then
          if b = 0 then .err divZeroMsg else .num (a / b)
        else .err opErrMsg
  | _ => .err formatErrMsg

/-- The calculator tool of step2.py: replace the unicode operator signs,
split on whitespace and evaluate the three-token form. -/
def calculator (expression : String) : CalcResult :=
  calcParts (pySplitWs (pyReplaceOps expression))

end Step2

namespace Usecase001

/-- Abstract syntax of an arithmetic expression handed to the Python
eval builtin by the usecase-001 calculator; the tree is the result of
parsing with standard operator precedence. -/
inductive AExpr where
  | lit (q : ℚ) : AExpr
  | add (a b : AExpr) : AExpr
  | sub (a b : AExpr) : AExpr
  | mul (a b : AExpr) : AExpr
  | div (a b : AExpr) : AExpr

/-- Modelled: the Python eval builtin on an arithmetic expression
evaluates it with standard operator precedence (captured by the tree
shape) and raises ZeroDivisionError exactly when a division by zero is
reached; the model returns none in that case. -/
def evalArith : AExpr → Option ℚ
  | .lit q => some q
  | .add a b =>
    match evalArith a, evalArith b with
    | some x, some y => some (x + y)
    | _, _ => none
  | .sub a b =>
    match evalArith a, evalArith b with
    | some x, some y => some (x - y)
    | _, _ => none
  | .mul a b =>
    match evalArith a, evalArith b with
    | some x, some y => some (x * y)
    | _, _ => none
  | .div a b =>
    match evalArith a, evalArith b with
    | some x, some y => if y = 0 then none else some (x / y)
    | _, _ => none

/-- The usecase-001 calculator: eval the expression, catching
ZeroDivisionError (and the other listed exception classes) and turning
it into an error string. -/
def calculator (e : AExpr) : CalcResult :=
  match evalArith e with
  | some v => .num v
  | none => .err ("Calculation error: " ++ "division by zero")

end Usecase001

/-- JSON values as produced by the model of Python json.loads. -/
inductive JValue where
  | null : JValue
  | bool (b : Bool) : JValue
  | num (q : ℚ) : JValue
  | str (s : String) : JValue
  | arr (items : List JValue) : JValue
  | obj (members : List (String × JValue)) : JValue

/-- Key-value insertion with overwrite, as in a Python dict assignment:
an existing binding for the key is replaced in place, otherwise the pair
is appended at the end. -/
def insertKV {κ α : Type} [DecidableEq κ] :
    List (κ × α) → κ → α → List (κ × α)
  | [], k, v => [(k, v)]
  | (k1, v1) :: t, k, v =>
    if k1 = k then (k, v) :: t else (k1, v1) :: insertKV t k v

/-- Key lookup in an association list, as in a Python dict read. -/
def lookupKV {κ α : Type} [DecidableEq κ] :
    List (κ × α) → κ → Option α
  | [], _ => none
  | (k1, v1) :: t, k => if k1 = k then some v1 else lookupKV t k

/-- Model of Python dict.get(key, default). -/
def dictGet {κ α : Type} [DecidableEq κ]
    (m : List (κ × α)) (k : κ) (dflt : α) : α :=
  (lookupKV m k).getD dflt

/-- JSON string body reader: consumes characters up to the closing
quote, decoding the single-character escapes.  The uXXXX escape form is
outside the modelled subset and is treated as a parse failure, and raw
control characters are rejected as JSON requires. -/
def parseJStringAux : List Char → Option (List Char × List Char)
  | [] => none
  | '"' :: rest => some ([], rest)
  | '\\' :: e :: rest =>
    let esc : Option Char :=
      if e = '"' then some '"'
      else if e = '\\' then some '\\'
      else if e = '/' then some '/'
      else if e = 'n' then some '\n'
      else if e = 't' then some '\t'
      else if e = 'r' then some '\r'
      else if e = 'b' then some (Char.ofNat 8)
      else if e = 'f' then some (Char.ofNat 12)
      else none
    match esc with
    | none => none
    | some c =>
      match parseJStringAux rest with
      | none => none
      | some (s, r) => some (c :: s, r)
  | c :: rest =>
    if c.toNat < 32 then none
    else
      match parseJStringAux rest with
      | none => none
      | some (s, r) => some (c :: s, r)

/-- JSON number reader, following the strict JSON grammar: optional
minus sign, an integer part without leading zeros, optional fraction and
exponent.  The value is exact as a rational. -/
def parseJNum (cs : List Char) : Option (ℚ × List Char) :=
  let signed : Bool × List Char :=
    match cs with
    | '-' :: t => (true, t)
    | _ => (false, cs)
  match spanDigits signed.2 with
  | ([], _) => none
  | (ids, r1) =>
    if 1 < ids.length ∧ ids.headD '0' = '0' then none
    else
      let base : ℚ := (digitsVal ids : ℚ)
      let fracRes : Option (ℚ × List Char) :=
        match r1 with
        | '.' :: t =>
          match spanDigits t with
          | ([], _) => none
          | (fds, r2) =>
            some (base + (digitsVal fds : ℚ) / (10 : ℚ) ^ fds.length, r2)
        | _ => some (base, r1)
      match fracRes with
      | none => none
      | some (v1, r2) =>
        let expRes : Option (ℚ × List Char) :=
          match r2 with
          | 'e' :: t =>
            (match t with
              | '-' :: u => (match spanDigits u with
                | ([], _) => none
                | (eds, r3) => some (v1 / (10 : ℚ) ^ digitsVal eds, r3))
              | '+' :: u => (match spanDigits u with
                | ([], _) => none
                | (eds, r3) => some (v1 * (10 : ℚ) ^ digitsVal eds, r3))
              | _ => (match spanDigits t with
                | ([], _) => none
                | (eds, r3) => some (v1 * (10 : ℚ) ^ digitsVal eds, r3)))
          | 'E' :: t =>
            (match t with
              | '-' :: u => (match spanDigits u with
                | ([], _) => none
                | (eds, r3) => some (v1 / (10 : ℚ) ^ digitsVal eds, r3))
              | '+' :: u => (match spanDigits u with
                | ([], _) => none
                | (eds, r3) => some (v1 * (10 : ℚ) ^ digitsVal eds, r3))
              | _ => (match spanDigits t with
                | ([], _) => none
                | (eds, r3) => some (v1 * (10 : ℚ) ^ digitsVal eds, r3)))
          | _ => some (v1, r2)
        match expRes with
        | none => none
        | some (v2, r3) =>
          some ((if signed.1 then -v2 else v2), r3)

/-- JSON whitespace (space, tab, newline, carriage return) skipper. -/
def skipWsJ : List Char → List Char
  | [] => []
  | c :: cs => if isPyWs c then skipWsJ cs else c :: cs

mutual

/-- JSON value reader with fuel; one unit of fuel is spent per nested
value or element, and each such step consumes at least one input
character, so fuel length + 2 always suffices. -/
def parseJVal : Nat → List Char → Option (JValue × List Char)
  | 0, _ => none
  | Nat.succ n, cs =>
    match skipWsJ cs with
    | [] => none
    | 'n' :: t =>
      (match t with
        | 'u' :: 'l' :: 'l' :: r => some (JValue.null, r)
        | _ => none)
    | 't' :: t =>
      (match t with
        | 'r' :: 'u' :: 'e' :: r => some (JValue.bool true, r)
        | _ => none)
    | 'f' :: t =>
      (match t with
        | 'a' :: 'l' :: 's' :: 'e' :: r => some (JValue.bool false, r)
        | _ => none)
    | '"' :: t =>
      (match parseJStringAux t with
        | some (s, r) => some (JValue.str (String.mk s), r)
        | none => none)
    | '[' :: t =>
      (match skipWsJ t with
        | ']' :: r => some (JValue.arr [], r)
        | _ =>
          match parseJItems n t with
          | some (xs, r) => some (JValue.arr xs, r)
          | none => none)
    | '{' :: t =>
      (match skipWsJ t with
        | '}' :: r => some (JValue.obj [], r)
        | _ =>
          match parseJMembers n t [] with
          | some (kvs, r) => some (JValue.obj kvs, r)
          | none => none)
    | c :: t =>
      if c = '-' ∨ c.isDigit then
        match parseJNum (c :: t) with
        | some (q, r) => some (JValue.num q, r)
        | none => none
      else none

/-- Comma-separated JSON array elements up to the closing bracket. -/
def parseJItems : Nat → List Char → Option (List JValue × List Char)
  | 0, _ => none
  | Nat.succ n, cs =>
    match parseJVal n cs with
    | none => none
    | some (v, r) =>
      match skipWsJ r with
      | ',' :: r2 =>
        (match parseJItems n r2 with
          | some (xs, r3) => some (v :: xs, r3)
          | none => none)
      | ']' :: r2 => some ([v], r2)
      | _ => none

/-- Comma-separated JSON object members up to the closing brace.  The
accumulator is grown with overwriting insertion, mirroring the way
Python json.loads builds a dict, where a duplicated key keeps the last
value. -/
def parseJMembers : Nat → List Char → List (String × JValue) →
    Option (List (String × JValue) × List Char)
  | 0, _, _ => none
  | Nat.succ n, cs, acc =>
    match skipWsJ cs with
    | '"' :: t =>
      (match parseJStringAux t with
        | none => none
        | some (kchars, r) =>
          match skipWsJ r with
          | ':' :: r2 =>
            (match parseJVal n r2 with
              | none => none
              | some (v, r3) =>
                let acc2 := insertKV acc (String.mk kchars) v
                match skipWsJ r3 with
                | ',' :: r4 => parseJMembers n r4 acc2
                | '}' :: r4 => some (acc2, r4)
                | _ => none)
          | _ => none)
    | _ => none

end

/-- Model of Python json.loads: parse one JSON value and require that
only whitespace follows it; any other input raises, modelled as none. -/
def json_loads (s : String) : Option JValue :=
  match parseJVal (s.length + 2) s.data with
  | none => none
  | some (v, rest) => if skipWsJ rest = [] then some v else none

/-- Model of Python float() applied to a decoded JSON value: numbers
pass through, booleans become 0 or 1, numeric strings are read as
decimal literals, and every other shape raises (none). -/
def pyFloatOfJ : JValue → Option ℚ
  | .num q => some q
  | .bool b => some (if b then 1 else 0)
  | .str s => pyFloatString s
  | _ => none

namespace Usecase011

/-- The hard-coded fallback step list of the usecase-011 breakdown
node, used both when json.loads raises and when it returns a non-list. -/
def defaultSteps : List JValue :=
  [JValue.str "Understand the problem",
   JValue.str "Solve systematically",
   JValue.str "Verify answer"]

/-- The steps computed by the problem_breakdown node of usecase-011
from the model response content: the JSON parse result if it is a list,
the hard-coded default otherwise (non-list value or parse failure). -/
def problem_breakdown (content : String) : List JValue :=
  match json_loads content with
  | some (JValue.arr xs) => xs
  | some _ => defaultSteps
  | none => defaultSteps

end Usecase011

namespace Usecase013

/-- The graph state of usecase-013.  Numeric scores are exact
rationals; the assessment and suggestion fields hold decoded JSON
values since the Python code stores whatever dict.get returns. -/
structure AgentState where
  problem : String
  current_solution : String
  quality_assessment : JValue
  quality_score : ℚ
  improvement_suggestions : List JValue
  iteration_count : Nat
  final_solution : String

/-- The initial_solution node: stores the model response as the current
solution and resets every other field, in particular the iteration
counter to zero. -/
def initial_solution (problem content : String) : AgentState :=
  { problem := problem
    current_solution := content
    quality_assessment := JValue.str ""
    quality_score := 0
    improvement_suggestions := []
    iteration_count := 0
    final_solution := "" }

/-- The try/except block of assess_solution: parse the response as a
JSON object, read score (through float()), assessment and suggestions
with their dict.get defaults, wrapping a non-list suggestions value;
any raised exception (parse failure, attribute access on a non-dict,
float() on a non-numeric value) selects the hard-coded fallback
triple. -/
def assessParse (content : String) : ℚ × JValue × List JValue :=
  let fallback : ℚ × JValue × List JValue :=
    (5, JValue.str "Unable to parse assessment",
     [JValue.str "Improve overall solution"])
  match json_loads content with
  | some (JValue.obj kvs) =>
    (match pyFloatOfJ (dictGet kvs "score" (JValue.num 5)) with
      | some q =>
        let assessment := dictGet kvs "assessment" (JValue.str "No assessment provided")
        let sugg :=
          match dictGet kvs "suggestions" (JValue.arr [JValue.str "No suggestions provided"]) with
          | JValue.arr xs => xs
          | v => [v]
        (q, assessment, sugg)
      | none => fallback)
  | some _ => fallback
  | none => fallback

/-- The assess_solution node: overlay the parsed (or fallback)
assessment fields and increment the iteration counter by one; the
increment sits outside the try/except and happens on every pass. -/
def assess_solution (content : String) (st : AgentState) : AgentState :=
  { st with
    quality_assessment := (assessParse content).2.1
    quality_score := (assessParse content).1
    improvement_suggestions := (assessParse content).2.2
    iteration_count := st.iteration_count + 1 }

/-- The refine_solution node: replace the current solution with the
model response, leaving every other field (including the iteration
counter) unchanged. -/
def refine_solution (content : String) (st : AgentState) : AgentState :=
  { st with current_solution := content }

/-- The finalize_solution node: store the polished solution. -/
def finalize_solution (content : String) (st : AgentState) : AgentState :=
  { st with final_solution := content }

/-- The routing function evaluated after the assess node. -/
def should_continue_refining (st : AgentState) : String :=
  if 8 ≤ st.quality_score ∨ 3 ≤ st.iteration_count then "finalize" else "refine"

/-- The assess/refine loop of the graph, driven by the streams of model
responses for the assess and refine nodes; k counts the assess
executions so far and the function returns the total count together
with the state the router sends to finalize.  Termination follows from
the iteration counter strictly increasing on each assess pass while the
router forces the finalize branch at three iterations. -/
def refineLoop (ar rr : Nat → String) (k : Nat) (st : AgentState) : Nat × AgentState :=
  if should_continue_refining (assess_solution (ar k) st) = "finalize" then
    (k + 1, assess_solution (ar k) st)
  else
    refineLoop ar rr (k + 1) (refine_solution (rr k) (assess_solution (ar k) st))
termination_by 3 - st.iteration_count
decreasing_by
  rename_i h
  simp only [should_continue_refining, assess_solution, refine_solution] at h ⊢
  split at h
  · exact absurd rfl h
  · rename_i hc
    omega

end Usecase013

namespace Usecase019

/-- The query-dependent fallback sub-question list of the usecase-019
breakdown node, selected when a JSON parse attempt raises. -/
def fallbackSubQuestions (query : String) : List JValue :=
  [JValue.str ("What are the key aspects of " ++ query ++ "?"),
   JValue.str ("What challenges exist regarding " ++ query ++ "?"),
   JValue.str ("What are current solutions related to " ++ query ++ "?")]

/-- The isinstance list check of the breakdown node: a non-list parse
result is wrapped in a singleton list. -/
def wrapList : JValue → List JValue
  | JValue.arr xs => xs
  | v => [v]

/-- True when the first character of the string is a decimal digit, as
line[0].isdigit() on the ASCII subset. -/
def headIsDigit (s : String) : Bool :=
  match s.data with
  | [] => false
  | c :: _ => c.isDigit

/-- The character set of the strip call applied to each bullet line. -/
def stripSetChars : List Char := "- *0123456789.".data

/-- The line-by-line branch of the breakdown node: split the content on
newlines, strip each line, keep the lines opening with a dash, a star
or a digit, and strip the bullet characters from the kept lines. -/
def lineCandidates (content : String) : List String :=
  ((pySplitOn content "\n").map pyStrip).filterMap (fun l =>
    if l ≠ "" ∧ (headIs l '-' ∨ headIs l '*' ∨ headIsDigit l) then
      some (pyStrip (pyStripSet l stripSetChars))
    else none)

/-- The fenced payload: text after the first occurrence of the json
fence opener, cut at the next triple backtick, stripped. -/
def fencedContent (content : String) : String :=
  pyStrip ((pySplitOn ((pySplitOn content "```json").getD 1 "") "```").getD 0 "")

/-- The sub-question list computed by break_down_question of usecase-019
from the model response content: a fenced JSON block or a bracketed
response is parsed as JSON (wrapping a non-list value and truncating to
five entries), any other response goes through the bullet-line scan
(which can legitimately produce an empty list), and a raised JSON parse
error selects the query-dependent fallback list. -/
def break_down_question (query content : String) : List JValue :=
  if pyContains content "```json" then
    match json_loads (fencedContent content) with
    | some v => (wrapList v).take 5
    | none => fallbackSubQuestions query
  else if headIs (pyStrip content) '[' ∧ lastIs (pyStrip content) ']' then
    match json_loads content with
    | some v => (wrapList v).take 5
    | none => fallbackSubQuestions query
  else
    ((lineCandidates content).map JValue.str).take 5

/-- The worker pool size chosen by run_parallel_research. -/
def maxWorkers {κ : Type} (sub_questions : List κ) : Nat :=
  sub_questions.length

/-- The result collection loop of run_parallel_research: starting from
an empty dict, each completed future stores its result under its own
sub-question; the order argument is the completion order delivered by
as_completed, a permutation of the submitted sub-questions. -/
def gatherResults {κ α : Type} [DecidableEq κ]
    (order : List κ) (task : κ → α) : List (κ × α) :=
  order.foldl (fun m q => insertKV m q (task q)) []

/-- The research_task wrapper: run the research graph body on the
sub-question and attach the execution time computed from the two clock
reads around the call. -/
def research_task {κ ρ : Type} (body : κ → ρ) (sClock eClock : κ → ℚ)
    (q : κ) : ρ × ℚ :=
  (body q, eClock q - sClock q)

/-- run_parallel_research: the thread pool is sized to the number of
sub-questions and its constructor raises ValueError when that number is
zero; otherwise every submitted task is awaited and the results are
gathered keyed by sub-question in completion order. -/
def run_parallel_research {κ α : Type} [DecidableEq κ]
    (sub_questions order : List κ) (task : κ → α) :
    Except String (List (κ × α)) :=
  if maxWorkers sub_questions = 0 then
    Except.error "max_workers must be greater than 0"
  else
    Except.ok (gatherResults order task)

/-- The execution statistics assembled by synthesize_findings. -/
structure SynthStats (κ : Type) where
  start_time : ℚ
  end_time : ℚ
  total_time : ℚ
  sub_question_times : List (κ × ℚ)

/-- The statistics block of synthesize_findings: total time is the
clock read at synthesis minus the start time recorded by the breakdown
node, and the per-question times are read out of the gathered results. -/
def synthesize_stats {κ ρ : Type} (start_time now : ℚ)
    (research_results : List (κ × (ρ × ℚ))) : SynthStats κ :=
  { start_time := start_time
    end_time := now
    total_time := now - start_time
    sub_question_times := research_results.map (fun p => (p.1, p.2.2)) }

/-- The per-question time reported in the statistics, with the dict.get
default of zero. -/
def subTime {κ : Type} [DecidableEq κ] (stats : SynthStats κ) (q : κ) : ℚ :=
  (lookupKV stats.sub_question_times q).getD 0

end Usecase019

namespace Usecase020

/-- One record of the message log of usecase-020. -/
structure LogMessage where
  timestamp : String
  sender : String
  message : String
deriving DecidableEq

/-- The operation kinds of the EditOperation pydantic model. -/
inductive OpType where
  | create | edit | format | review | approve
deriving DecidableEq

/-- The EditOperation pydantic model of usecase-020. -/
structure EditOperation where
  operation_id : String
  timestamp : String
  operation_type : OpType
  user_id : String
  description : String
deriving DecidableEq

/-- The Section pydantic model of usecase-020. -/
structure Section where
  section_id : String
  title : String
  content : String
  order : Int
  last_modified : String
  last_modified_by : Option String

/-- The DocumentVersion pydantic model of usecase-020. -/
structure DocumentVersion where
  version_id : String
  version_number : Nat
  timestamp : String
  sections : List Section
  commit_message : String

/-- The DocumentState pydantic model of usecase-020. -/
structure DocumentState where
  document_id : String
  title : String
  description : String
  current_version : Nat
  versions : List DocumentVersion
  edit_history : List EditOperation
  created_at : String
  status : String

/-- The graph state of usecase-020, restricted to the fields the log
operations touch. -/
structure EditorState where
  prompt : String
  document : Option DocumentState
  message_log : List LogMessage

/-- add_message_to_log of usecase-020: read the message log out of the
state and append one freshly timestamped record at the end, the clock
read passed explicitly. -/
def add_message_to_log (state : EditorState) (sender message now : String) :
    List LogMessage :=
  state.message_log ++ [{ timestamp := now, sender := sender, message := message }]

/-- The document.edit_history.append(operation) step performed by every
editing node of usecase-020. -/
def record_edit (doc : DocumentState) (op : EditOperation) : DocumentState :=
  { doc with edit_history := doc.edit_history ++ [op] }

end Usecase020

namespace Usecase002

/-- Model of random.randint(lo, hi) fed by one draw of the ambient
random source: a value in the closed interval. -/
def randint (lo hi r : Nat) : Nat :=
  lo + r % (hi - lo + 1)

/-- Model of random.choice on a non-empty list fed by one draw. -/
def pyChoice (xs : List String) (r : Nat) : String :=
  xs.getD (r % xs.length) ""

/-- Model of Python str.title(): upper-case every alphabetic character
that follows a non-alphabetic one, lower-case the rest. -/
def titleAux : List Char → Bool → List Char
  | [], _ => []
  | c :: cs, prevAlpha =>
    (if c.isAlpha then (if prevAlpha then c.toLower else c.toUpper) else c)
      :: titleAux cs c.isAlpha

/-- Python str.title() on the ASCII subset. -/
def pyTitle (s : String) : String :=
  String.mk (titleAux s.data false)

/-- The fixed output format of the usecase-002 weather report. -/
def weatherRender (loc dateStr timeStr : String) (temp : Nat) (cond : String)
    (humidity wind : Nat) : String :=
  "Weather for " ++ loc ++ " on " ++ dateStr ++ " at " ++ timeStr ++ ":\n" ++
  "Temperature: " ++ toString temp ++ "°F\n" ++
  "Condition: " ++ cond ++ "\n" ++
  "Humidity: " ++ toString humidity ++ "%\n" ++
  "Wind Speed: " ++ toString wind ++ " mph"

/-- The get_weather tool of usecase-002.  The Python function builds the
whole mock location table eagerly (two random draws per city in source
order), evaluates the dict.get default eagerly (one more draw), and
draws humidity and wind while formatting; the ambient random source is
the explicit supply of draws, indexed in exactly that evaluation order,
and the two clock-derived date and time strings are passed explicitly. -/
def get_weather (location_query : String) (supply : Nat → Nat)
    (dateStr timeStr : String) : String :=
  let ny := (randint 40 85 (supply 0),
    pyChoice ["Sunny", "Cloudy", "Rainy", "Snowy"] (supply 1))
  let london := (randint 40 75 (supply 2),
    pyChoice ["Cloudy", "Rainy", "Foggy", "Partly Cloudy"] (supply 3))
  let tokyo := (randint 50 90 (supply 4),
    pyChoice ["Sunny", "Cloudy", "Rainy"] (supply 5))
  let sydney := (randint 60 95 (supply 6),
    pyChoice ["Sunny", "Partly Cloudy", "Clear"] (supply 7))
  let paris := (randint 45 80 (supply 8),
    pyChoice ["Sunny", "Cloudy", "Rainy"] (supply 9))
  let dflt := (randint 50 80 (supply 10), "Partly Cloudy")
  let location := pyLower location_query
  let w :=
    if location = "new york" then ny
    else if location = "london" then london
    else if location = "tokyo" then tokyo
    else if location = "sydney" then sydney
    else if location = "paris" then paris
    else dflt
  weatherRender (pyTitle location_query) dateStr timeStr w.1 w.2
    (randint 30 90 (supply 11)) (randint 0 20 (supply 12))

end Usecase002

/-- Outcome of the argv check at the top of a script main: either the
usage line is printed and the process exits with the given status, or
the pipeline runs on the first positional argument. -/
inductive MainOutcome where
  | usageExit (msg : String) (code : Nat) : MainOutcome
  | run (arg : String) : MainOutcome
deriving DecidableEq

/-- The shared argv guard of the usecase mains: sys.argv holds the
program name followed by the positional arguments, and fewer than two
entries prints the usage line and exits with status one. -/
def cliCheck (usage : String) (argv : List String) : MainOutcome :=
  if argv.length < 2 then MainOutcome.usageExit usage 1
  else MainOutcome.run (argv.getD 1 "")

/-- The usage line of the usecase-011 main. -/
def usage011 : String := "Usage: python main.py \"<problem_statement>\""

/-- The usage line of the usecase-012 main. -/
def usage012 : String := "Usage: python main.py \"<problem_statement>\""

/-- The usage line of the usecase-013 main. -/
def usage013 : String := "Usage: python main.py \"<problem_statement>\""

/-- The usage line of the usecase-014 main. -/
def usage014 : String := "Usage: python main.py \"<query>\""

/-- The usage line of the usecase-015 main. -/
def usage015 : String := "Usage: python main.py \"<query>\""

/-- The usage line of the usecase-016 main. -/
def usage016 : String := "Usage: python main.py \"<input_text>\""

/-- The usage line of the usecase-017 main. -/
def usage017 : String := "Usage: python main.py \"<content_prompt>\""

/-- The usage line of the usecase-019 main. -/
def usage019 : String := "Usage: python main.py \"<research_query>\""

/-- The usage line of the usecase-020 main. -/
def usage020 : String := "Usage: python main.py \"<document_prompt>\""

/-- The argv guard of the usecase-011 main. -/
def cli011 (argv : List String) : MainOutcome := cliCheck usage011 argv

/-- The argv guard of the usecase-012 main. -/
def cli012 (argv : List String) : MainOutcome := cliCheck usage012 argv

/-- The argv guard of the usecase-013 main. -/
def cli013 (argv : List String) : MainOutcome := cliCheck usage013 argv

/-- The argv guard of the usecase-014 main. -/
def cli014 (argv : List String) : MainOutcome := cliCheck usage014 argv

/-- The argv guard of the usecase-015 main. -/
def cli015 (argv : List String) : MainOutcome := cliCheck usage015 argv

/-- The argv guard of the usecase-016 main. -/
def cli016 (argv : List String) : MainOutcome := cliCheck usage016 argv

/-- The argv guard of the usecase-017 main. -/
def cli017 (argv : List String) : MainOutcome := cliCheck usage017 argv

/-- The argv guard of the usecase-019 main. -/
def cli019 (argv : List String) : MainOutcome := cliCheck usage019 argv

/-- The argv guard of the usecase-020 main. -/
def cli020 (argv : List String) : MainOutcome := cliCheck usage020 argv

/-- Exception classes relevant to the top-level handlers of the
scripts; otherExc covers every class not named by any handler. -/
inductive PyExc where
  | valueError | keyError | connectionError | timeoutError | runtimeError
  | otherExc (name : String)
deriving DecidableEq

/-- The exception classes caught by the three except clauses around the
query loop of step2.py. -/
def step2Handles : PyExc → Bool
  | .valueError => true
  | .keyError => true
  | .connectionError => true
  | .timeoutError => true
  | .runtimeError => true
  | .otherExc _ => false

/-- The except Exception clause of the usecase-001 main catches every
exception class raised by agent.invoke. -/
def usecase001Handles : PyExc → Bool := fun _ => true

/-- The usecase-011 main has no handler around graph.invoke. -/
def usecase011Handles : PyExc → Bool := fun _ => false

/-- The class name of an exception, standing in for str(e) in the
printed error lines. -/
def excName : PyExc → String
  | .valueError => "ValueError"
  | .keyError => "KeyError"
  | .connectionError => "ConnectionError"
  | .timeoutError => "TimeoutError"
  | .runtimeError => "RuntimeError"
  | .otherExc n => n

/-- A fixed-query loop around an orchestrator invocation: each query
either yields an answer line, or raises; a raised exception in the
handled set yields an error line and the loop continues with the next
query, while an unhandled exception propagates out of the loop. -/
def runQueryLoop {σ : Type} (handles : PyExc → Bool)
    (invoke : σ → Except PyExc String) :
    List σ → Except PyExc (List String)
  | [] => Except.ok []
  | q :: rest =>
    match invoke q with
    | Except.ok r =>
      (match runQueryLoop handles invoke rest with
        | Except.ok outs => Except.ok (r :: outs)
        | Except.error e => Except.error e)
    | Except.error e =>
      if handles e then
        match runQueryLoop handles invoke rest with
        | Except.ok outs => Except.ok (("Error: " ++ excName e) :: outs)
        | Except.error e2 => Except.error e2
      else Except.error e

/-- The single unguarded invocation of the usecase-011 main: whatever
graph.invoke does, including raising, is passed through. -/
def usecase011Run (invoke : Except PyExc String) : Except PyExc String :=
  invoke

/-! Helper lemmas about the dict model used by the gather step. -/

theorem lookupKV_insertKV_self {κ α : Type} [DecidableEq κ]
    (m : List (κ × α)) (k : κ) (v : α) :
    lookupKV (insertKV m k v) k = some v := by
  induction m with
  | nil => simp [insertKV, lookupKV]
  | cons p t ih =>
    obtain ⟨k1, v1⟩ := p
    by_cases h : k1 = k
    · simp [insertKV, lookupKV, h]
    · simp [insertKV, lookupKV, h, ih]

theorem lookupKV_insertKV_ne {κ α : Type} [DecidableEq κ]
    (m : List (κ × α)) (k k' : κ) (v : α) (h : k' ≠ k) :
    lookupKV (insertKV m k v) k' = lookupKV m k' := by
  induction m with
  | nil =>
    simp only [insertKV, lookupKV]
    rw [if_neg (fun hh => h hh.symm)]
  | cons p t ih =>
    obtain ⟨k1, v1⟩ := p
    simp only [insertKV]
    by_cases h1 : k1 = k
    · rw [if_pos h1]
      simp only [lookupKV]
      rw [if_neg (fun hh => h hh.symm), if_neg (fun hh => h (hh.symm.trans h1))]
    · rw [if_neg h1]
      simp only [lookupKV]
      by_cases h2 : k1 = k'
      · rw [if_pos h2, if_pos h2]
      · rw [if_neg h2, if_neg h2]
        exact ih

theorem mem_of_mem_insertKV {κ α : Type} [DecidableEq κ]
    {m : List (κ × α)} {k : κ} {v : α} {p : κ × α}
    (h : p ∈ insertKV m k v) : p = (k, v) ∨ p ∈ m := by
  induction m with
  | nil => simpa [insertKV] using h
  | cons q t ih =>
    obtain ⟨k1, v1⟩ := q
    by_cases h1 : k1 = k
    · simp only [insertKV, if_pos h1, List.mem_cons] at h
      rcases h with h | h
      · exact Or.inl h
      · exact Or.inr (List.mem_cons_of_mem _ h)
    · simp only [insertKV, if_neg h1, List.mem_cons] at h
      rcases h with h | h
      · exact Or.inr (h ▸ List.mem_cons_self _ _)
      · rcases ih h with h2 | h2
        · exact Or.inl h2
        · exact Or.inr (List.mem_cons_of_mem _ h2)

theorem mem_keys_insertKV_self {κ α : Type} [DecidableEq κ]
    (m : List (κ × α)) (k : κ) (v : α) :
    k ∈ (insertKV m k v).map Prod.fst := by
  induction m with
  | nil => simp [insertKV]
  | cons p t ih =>
    obtain ⟨k1, v1⟩ := p
    by_cases h : k1 = k
    · simp [insertKV, h]
    · simp only [insertKV, if_neg h, List.map_cons, List.mem_cons]
      exact Or.inr ih

theorem mem_keys_insertKV_of_mem {κ α : Type} [DecidableEq κ]
    {m : List (κ × α)} {q k : κ} {v : α}
    (h : q ∈ m.map Prod.fst) : q ∈ (insertKV m k v).map Prod.fst := by
  induction m with
  | nil => simp at h
  | cons p t ih =>
    obtain ⟨k1, v1⟩ := p
    by_cases h1 : k1 = k
    · simp only [List.map_cons, List.mem_cons] at h
      rcases h with h | h
      · subst h1
        simp [insertKV, h]
      · simp only [insertKV, if_pos h1, List.map_cons, List.mem_cons]
        exact Or.inr h
    · simp only [List.map_cons, List.mem_cons] at h
      simp only [insertKV, if_neg h1, List.map_cons, List.mem_cons]
      rcases h with h | h
      · exact Or.inl h
      · exact Or.inr (ih h)

theorem keys_insertKV_cases {κ α : Type} [DecidableEq κ]
    {m : List (κ × α)} {q k : κ} {v : α}
    (h : q ∈ (insertKV m k v).map Prod.fst) : q = k ∨ q ∈ m.map Prod.fst := by
  rcases List.mem_map.1 h with ⟨p, hp, hq⟩
  rcases mem_of_mem_insertKV hp with h1 | h1
  · subst h1
    exact Or.inl hq.symm
  · exact Or.inr (hq ▸ List.mem_map_of_mem Prod.fst h1)

theorem nodup_keys_insertKV {κ α : Type} [DecidableEq κ]
    {m : List (κ × α)} (k : κ) (v : α)
    (h : (m.map Prod.fst).Nodup) : ((insertKV m k v).map Prod.fst).Nodup := by
  induction m with
  | nil => simp [insertKV]
  | cons p t ih =>
    obtain ⟨k1, v1⟩ := p
    simp only [List.map_cons, List.nodup_cons] at h
    simp only [insertKV]
    by_cases h1 : k1 = k
    · rw [if_pos h1]
      simp only [List.map_cons, List.nodup_cons]
      exact ⟨h1 ▸ h.1, h.2⟩
    · rw [if_neg h1]
      simp only [List.map_cons, List.nodup_cons]
      refine ⟨fun hc => ?_, ih h.2⟩
      rcases keys_insertKV_cases hc with h2 | h2
      · exact h1 h2
      · exact h.1 h2

theorem lookupKV_mem {κ α : Type} [DecidableEq κ]
    {m : List (κ × α)} {q : κ} {v : α}
    (h : lookupKV m q = some v) : (q, v) ∈ m := by
  induction m with
  | nil => simp [lookupKV] at h
  | cons p t ih =>
    obtain ⟨k1, v1⟩ := p
    simp only [lookupKV] at h
    by_cases h1 : k1 = q
    · rw [if_pos h1] at h
      subst h1
      cases Option.some.inj h
      exact List.mem_cons_self _ _
    · rw [if_neg h1] at h
      exact List.mem_cons_of_mem _ (ih h)

theorem lookupKV_isSome_of_mem_keys {κ α : Type} [DecidableEq κ]
    {m : List (κ × α)} {q : κ}
    (h : q ∈ m.map Prod.fst) : ∃ v, lookupKV m q = some v := by
  induction m with
  | nil => simp at h
  | cons p t ih =>
    obtain ⟨k1, v1⟩ := p
    by_cases h1 : k1 = q
    · exact ⟨v1, by simp [lookupKV, h1]⟩
    · simp only [List.map_cons, List.mem_cons] at h
      rcases h with h | h
      · exact absurd h.symm h1
      · rcases ih h with ⟨v, hv⟩
        exact ⟨v, by simp [lookupKV, h1, hv]⟩

theorem lookupKV_map_snd {κ α β : Type} [DecidableEq κ]
    (m : List (κ × α)) (g : α → β) (q : κ) :
    lookupKV (m.map (fun p => (p.1, g p.2))) q = (lookupKV m q).map g := by
  induction m with
  | nil => simp [lookupKV]
  | cons p t ih =>
    obtain ⟨k1, v1⟩ := p
    by_cases h : k1 = q
    · simp [lookupKV, h]
    · simp [lookupKV, h, ih]

theorem lookupKV_eq_none_of_not_mem_keys {κ α : Type} [DecidableEq κ]
    {m : List (κ × α)} {q : κ}
    (h : q ∉ m.map Prod.fst) : lookupKV m q = none := by
  induction m with
  | nil => rfl
  | cons p t ih =>
    obtain ⟨k1, v1⟩ := p
    simp only [List.map_cons, List.mem_cons] at h
    push_neg at h
    simp only [lookupKV]
    rw [if_neg (fun hh => h.1 hh.symm)]
    exact ih h.2

theorem gather_lookup_aux {κ α : Type} [DecidableEq κ] (task : κ → α) :
    ∀ (π : List κ) (acc : List (κ × α)),
      (∀ p ∈ acc, p.2 = task p.1) →
      ∀ q, (q ∈ π ∨ q ∈ acc.map Prod.fst) →
      lookupKV (π.foldl (fun m x => insertKV m x (task x)) acc) q = some (task q) := by
  intro π
  induction π with
  | nil =>
    intro acc hacc q hq
    rcases hq with h | h
    · simp at h
    · rcases lookupKV_isSome_of_mem_keys h with ⟨v, hv⟩
      have hval : v = task q := hacc _ (lookupKV_mem hv)
      rw [List.foldl_nil, hv, hval]
  | cons x rest ih =>
    intro acc hacc q hq
    rw [List.foldl_cons]
    apply ih
    · intro p hp
      rcases mem_of_mem_insertKV hp with h | h
      · subst h
        rfl
      · exact hacc p h
    · rcases hq with h | h
      · rcases List.mem_cons.1 h with h1 | h1
        · subst h1
          exact Or.inr (mem_keys_insertKV_self acc q (task q))
        · exact Or.inl h1
      · exact Or.inr (mem_keys_insertKV_of_mem h)

theorem gather_lookup {κ α : Type} [DecidableEq κ]
    (π : List κ) (task : κ → α) (q : κ) (hq : q ∈ π) :
    lookupKV (Usecase019.gatherResults π task) q = some (task q) :=
  gather_lookup_aux task π [] (by simp) q (Or.inl hq)

theorem gather_not_mem_aux {κ α : Type} [DecidableEq κ] (task : κ → α) :
    ∀ (π : List κ) (acc : List (κ × α)) (q : κ),
      q ∉ π → q ∉ acc.map Prod.fst →
      lookupKV (π.foldl (fun m x => insertKV m x (task x)) acc) q = none := by
  intro π
  induction π with
  | nil =>
    intro acc q _ hacc
    rw [List.foldl_nil]
    exact lookupKV_eq_none_of_not_mem_keys hacc
  | cons x rest ih =>
    intro acc q hπ hacc
    simp only [List.mem_cons] at hπ
    push_neg at hπ
    rw [List.foldl_cons]
    apply ih _ _ hπ.2
    intro hc
    rcases keys_insertKV_cases hc with h | h
    · exact hπ.1 h
    · exact hacc h

theorem gather_lookup_not_mem {κ α : Type} [DecidableEq κ]
    (π : List κ) (task : κ → α) (q : κ) (hq : q ∉ π) :
    lookupKV (Usecase019.gatherResults π task) q = none :=
  gather_not_mem_aux task π [] q hq (by simp)

theorem gather_keys_aux {κ α : Type} [DecidableEq κ] (task : κ → α) :
    ∀ (π : List κ) (acc : List (κ × α)) (q : κ),
      q ∈ (π.foldl (fun m x => insertKV m x (task x)) acc).map Prod.fst →
      q ∈ π ∨ q ∈ acc.map Prod.fst := by
  intro π
  induction π with
  | nil =>
    intro acc q h
    rw [List.foldl_nil] at h
    exact Or.inr h
  | cons x rest ih =>
    intro acc q h
    rw [List.foldl_cons] at h
    rcases ih _ _ h with h1 | h1
    · exact Or.inl (List.mem_cons_of_mem _ h1)
    · rcases keys_insertKV_cases h1 with h2 | h2
      · exact Or.inl (h2 ▸ List.mem_cons_self _ _)
      · exact Or.inr h2

theorem gather_keys {κ α : Type} [DecidableEq κ]
    (π : List κ) (task : κ → α) (q : κ)
    (h : q ∈ (Usecase019.gatherResults π task).map Prod.fst) : q ∈ π := by
  rcases gather_keys_aux task π [] q h with h1 | h1
  · exact h1
  · simp at h1

theorem gather_nodup_aux {κ α : Type} [DecidableEq κ] (task : κ → α) :
    ∀ (π : List κ) (acc : List (κ × α)),
      (acc.map Prod.fst).Nodup →
      ((π.foldl (fun m x => insertKV m x (task x)) acc).map Prod.fst).Nodup := by
  intro π
  induction π with
  | nil =>
    intro acc h
    rw [List.foldl_nil]
    exact h
  | cons x rest ih =>
    intro acc h
    rw [List.foldl_cons]
    exact ih _ (nodup_keys_insertKV x (task x) h)

theorem gather_nodup {κ α : Type} [DecidableEq κ]
    (π : List κ) (task : κ → α) :
    ((Usecase019.gatherResults π task).map Prod.fst).Nodup :=
  gather_nodup_aux task π [] (by simp)

/-- C1 (counterexample): the claim asserts that every well-formed
arithmetic expression given to a standalone calculator tool evaluates
with standard operator precedence.  The step2.py calculator, one of the
cited standalone calculators, rejects the well-formed expression
2 + 3 * 4 with a format error string instead of returning 14, the value
standard precedence assigns to it (as the usecase-001 evaluator model
confirms). -/
theorem c1_precedence_counterexample :
    Step2.calculator "2 + 3 * 4" = CalcResult.err Step2.formatErrMsg ∧
    Step2.calculator "2 + 3 * 4" ≠ CalcResult.num 14 ∧
    Usecase001.evalArith
      (Usecase001.AExpr.add (Usecase001.AExpr.lit 2)
        (Usecase001.AExpr.mul (Usecase001.AExpr.lit 3) (Usecase001.AExpr.lit 4)))
      = some 14 := by
  refine ⟨by decide, by decide, ?_⟩
  simp only [Usecase001.evalArith]
  norm_num

/-- C1 (amended): the eval-based usecase-001 calculator returns the
standard-precedence value of every expression whose evaluation does not
divide by zero and an error string (not an exception) when it does; the
step2.py calculator evaluates only three-token binary expressions
a op b, returning the exact arithmetic result, the division-by-zero
error string when op is / and b is zero, and an error string for every
expression that does not split into exactly three tokens. -/
theorem c1_calculator_amended :
    (∀ e : Usecase001.AExpr,
      (∀ v, Usecase001.evalArith e = some v →
        Usecase001.calculator e = CalcResult.num v) ∧
      (Usecase001.evalArith e = none →
        ∃ m, Usecase001.calculator e = CalcResult.err m)) ∧
    (∀ parts : List String, parts.length ≠ 3 →
      Step2.calcParts parts = CalcResult.err Step2.formatErrMsg) ∧
    (∀ s1 sop s2 : String, ∀ a b : ℚ,
      pyFloatString s1 = some a → pyFloatString s2 = some b →
      Step2.calcParts [s1, sop, s2] =
        if sop = "+" then CalcResult.num (a + b)
        else if sop = "-" then CalcResult.num (a - b)
        else if sop = "*" then CalcResult.num (a * b)
        else if sop = "/" then
          (if b = 0 then CalcResult.err Step2.divZeroMsg
           else CalcResult.num (a / b))
        else CalcResult.err Step2.opErrMsg) := by
  refine ⟨fun e => ⟨fun v h => ?_, fun h => ?_⟩, fun parts h => ?_, ?_⟩
  · simp [Usecase001.calculator, h]
  · exact ⟨"Calculation error: " ++ "division by zero",
      by simp [Usecase001.calculator, h]⟩
  · match parts with
    | [] => rfl
    | [_] => rfl
    | [_, _] => rfl
    | [_, _, _] => simp at h
    | _ :: _ :: _ :: _ :: _ => rfl
  · intro s1 sop s2 a b h1 h2
    simp [Step2.calcParts, h1, h2]

/-- C1 (witness): the amended statement applied to concrete binary
expressions and a concrete malformed token list. -/
theorem c1_calculator_amended_witness :
    Step2.calcParts ["2", "+", "2"] = CalcResult.num 4 ∧
    Step2.calcParts ["10", "/", "0"] = CalcResult.err Step2.divZeroMsg ∧
    Step2.calcParts ["1", "2"] = CalcResult.err Step2.formatErrMsg ∧
    Usecase001.calculator
      (Usecase001.AExpr.add (Usecase001.AExpr.lit 2) (Usecase001.AExpr.lit 2))
      = CalcResult.num 4 := by
  have h1 := c1_calculator_amended.2.2 "2" "+" "2" 2 2 (by decide) (by decide)
  have h2 := c1_calculator_amended.2.2 "10" "/" "0" 10 0 (by decide) (by decide)
  have h3 := c1_calculator_amended.2.1 ["1", "2"] (by decide)
  have h4 := (c1_calculator_amended.1
    (Usecase001.AExpr.add (Usecase001.AExpr.lit 2) (Usecase001.AExpr.lit 2))).1
    4 (by simp only [Usecase001.evalArith]; norm_num)
  refine ⟨?_, ?_, h3, h4⟩
  · rw [h1, if_pos rfl]
    norm_num
  · rw [h2, if_neg (by decide), if_neg (by decide), if_neg (by decide),
      if_pos rfl, if_pos rfl]

/-- C10: a model response with no json fence, no surrounding brackets
and no bullet or numbered line makes break_down_question return the
empty sub-question list without raising, after which the thread pool of
run_parallel_research is constructed with max_workers equal to zero and
raises (the ValueError of ThreadPoolExecutor, modelled as the error
return). -/
theorem c10_empty_subquestions_pool_raises :
    Usecase019.break_down_question "quantum computing"
      "I cannot break this question down further." = [] ∧
    (∀ (α : Type) (order : List String) (task : String → α),
      Usecase019.run_parallel_research ([] : List String) order task =
        Except.error "max_workers must be greater than 0") := by
  constructor
  · rfl
  · intro α order task
    rfl

/-- C3: whenever a structured-output parse attempt fails (json.loads
raises on the content the step feeds it), the step returns its
hard-coded fallback — the fixed step list in usecase-011, the fixed
score/assessment/suggestions triple in usecase-013, and the fixed
query-template list in usecase-019 (for both of its parse routes, the
fenced-block one and the bracketed one) — independently of the
malformed content. -/
theorem c3_parse_fallback :
    (∀ content : String, json_loads content = none →
      Usecase011.problem_breakdown content = Usecase011.defaultSteps) ∧
    (∀ content : String, json_loads content = none →
      ∀ st : Usecase013.AgentState,
        Usecase013.assess_solution content st =
          { st with
            quality_assessment := JValue.str "Unable to parse assessment"
            quality_score := 5
            improvement_suggestions := [JValue.str "Improve overall solution"]
            iteration_count := st.iteration_count + 1 }) ∧
    (∀ query content : String, pyContains content "```json" = true →
      json_loads (Usecase019.fencedContent content) = none →
      Usecase019.break_down_question query content =
        Usecase019.fallbackSubQuestions query) ∧
    (∀ query content : String, pyContains content "```json" = false →
      headIs (pyStrip content) '[' = true → lastIs (pyStrip content) ']' = true →
      json_loads content = none →
      Usecase019.break_down_question query content =
        Usecase019.fallbackSubQuestions query) := by
  refine ⟨fun content h => ?_, fun content h st => ?_,
    fun query content h1 h2 => ?_, fun query content h1 h2 h3 h4 => ?_⟩
  · simp [Usecase011.problem_breakdown, h]
  · simp [Usecase013.assess_solution, Usecase013.assessParse, h]
  · simp [Usecase019.break_down_question, h1, h2]
  · simp [Usecase019.break_down_question, h1, h2, h3, h4]

/-- C3 (witness): the fallbacks at concrete malformed contents. -/
theorem c3_parse_fallback_witness :
    Usecase011.problem_breakdown "oops" = Usecase011.defaultSteps ∧
    Usecase013.assess_solution "oops" (Usecase013.initial_solution "p" "s") =
      { Usecase013.initial_solution "p" "s" with
        quality_assessment := JValue.str "Unable to parse assessment"
        quality_score := 5
        improvement_suggestions := [JValue.str "Improve overall solution"]
        iteration_count := (Usecase013.initial_solution "p" "s").iteration_count + 1 } ∧
    Usecase019.break_down_question "Q" "```json\nbroken\n```" =
      Usecase019.fallbackSubQuestions "Q" ∧
    Usecase019.break_down_question "Q" "[broken]" =
      Usecase019.fallbackSubQuestions "Q" :=
  ⟨c3_parse_fallback.1 "oops" (by rfl),
   c3_parse_fallback.2.1 "oops" (by rfl) _,
   c3_parse_fallback.2.2.1 "Q" "```json\nbroken\n```" (by rfl) (by rfl),
   c3_parse_fallback.2.2.2 "Q" "[broken]" (by rfl) (by rfl) (by rfl) (by rfl)⟩

/-- C4: every script that requires one positional argument (usecases
011 through 017, 019 and 020) reacts to an argv holding fewer than two
entries — the program name alone, so zero user arguments — by printing
its usage line, which contains the invocation syntax python main.py,
and exiting with the non-zero status one, never reaching the pipeline
branch. -/
theorem c4_cli_usage_exit :
    ∀ argv : List String, argv.length < 2 →
      (cli011 argv = MainOutcome.usageExit usage011 1 ∧
       cli012 argv = MainOutcome.usageExit usage012 1 ∧
       cli013 argv = MainOutcome.usageExit usage013 1 ∧
       cli014 argv = MainOutcome.usageExit usage014 1 ∧
       cli015 argv = MainOutcome.usageExit usage015 1 ∧
       cli016 argv = MainOutcome.usageExit usage016 1 ∧
       cli017 argv = MainOutcome.usageExit usage017 1 ∧
       cli019 argv = MainOutcome.usageExit usage019 1 ∧
       cli020 argv = MainOutcome.usageExit usage020 1) ∧
      (pyContains usage011 "python main.py" = true ∧
       pyContains usage012 "python main.py" = true ∧
       pyContains usage013 "python main.py" = true ∧
       pyContains usage014 "python main.py" = true ∧
       pyContains usage015 "python main.py" = true ∧
       pyContains usage016 "python main.py" = true ∧
       pyContains usage017 "python main.py" = true ∧
       pyContains usage019 "python main.py" = true ∧
       pyContains usage020 "python main.py" = true) ∧
      (1 : Nat) ≠ 0 := by
  intro argv h
  refine ⟨⟨?_, ?_, ?_, ?_, ?_, ?_, ?_, ?_, ?_⟩, by decide, by decide⟩
  all_goals simp [cli011, cli012, cli013, cli014, cli015, cli016, cli017,
    cli019, cli020, cliCheck, h]

/-- C4 (witness): the guard applied to the argv of a bare invocation. -/
theorem c4_cli_usage_exit_witness :
    cli011 ["main.py"] = MainOutcome.usageExit usage011 1 ∧
    cli019 ["main.py"] = MainOutcome.usageExit usage019 1 :=
  ⟨(c4_cli_usage_exit ["main.py"] (by decide)).1.1,
   (c4_cli_usage_exit ["main.py"] (by decide)).1.2.2.2.2.2.2.2.1⟩

/-- C5 (counterexample): the claim asserts every tool function is a
pure string-to-string function returning the same value on every
invocation with the same input.  The usecase-002 weather tool consults
the ambient random source, so two invocations on the same location with
different random states return different strings; and the step2.py
calculator returns a number, not a string, on success. -/
theorem c5_tool_purity_counterexample :
    Usecase002.get_weather "tokyo" (fun _ => 0) "2026-01-01" "12:00" ≠
      Usecase002.get_weather "tokyo" (fun _ => 1) "2026-01-01" "12:00" ∧
    Step2.calculator "2 + 2" = CalcResult.num 4 := by
  constructor
  · decide
  · have h : Step2.calculator "2 + 2" = CalcResult.num (2 + 2) := rfl
    rw [h]
    norm_num

/-- C5 (amended): every tool function is a total function of its string
input together with the explicit ambient state; with the random draws
and clock fixed, the weather tool output is the fixed report format
with the temperature always inside the per-location bounds (50 to 90
degrees for tokyo), and the calculator, whose output depends on the
expression alone, always returns either a number or an error string. -/
theorem c5_tool_functions_amended :
    (∀ supply : Nat → Nat, ∀ dateStr timeStr : String,
      Usecase002.get_weather "tokyo" supply dateStr timeStr =
        Usecase002.weatherRender "Tokyo" dateStr timeStr
          (Usecase002.randint 50 90 (supply 4))
          (Usecase002.pyChoice ["Sunny", "Cloudy", "Rainy"] (supply 5))
          (Usecase002.randint 30 90 (supply 11))
          (Usecase002.randint 0 20 (supply 12)) ∧
      50 ≤ Usecase002.randint 50 90 (supply 4) ∧
      Usecase002.randint 50 90 (supply 4) ≤ 90) ∧
    (∀ e : String, (∃ v, Step2.calculator e = CalcResult.num v) ∨
      (∃ m, Step2.calculator e = CalcResult.err m)) := by
  constructor
  · intro supply dateStr timeStr
    refine ⟨rfl, ?_, ?_⟩
    · simp only [Usecase002.randint]
      omega
    · simp only [Usecase002.randint]
      omega
  · intro e
    cases hc : Step2.calculator e with
    | num v => exact Or.inl ⟨v, rfl⟩
    | err m => exact Or.inr ⟨m, rfl⟩

/-- C7: the message log and edit history of usecase-020 are append
only: add_message_to_log and the edit-history append extend the
sequence by exactly one record placed at the end, and every record
present before the step is still present, unchanged and at the same
position, afterwards. -/
theorem c7_append_only_logs :
    ∀ (st : Usecase020.EditorState) (sender message now : String)
      (doc : Usecase020.DocumentState) (op : Usecase020.EditOperation),
      (Usecase020.add_message_to_log st sender message now).take
        st.message_log.length = st.message_log ∧
      (Usecase020.add_message_to_log st sender message now).length =
        st.message_log.length + 1 ∧
      (Usecase020.add_message_to_log st sender message now).getLast? =
        some { timestamp := now, sender := sender, message := message } ∧
      (Usecase020.record_edit doc op).edit_history.take
        doc.edit_history.length = doc.edit_history ∧
      (Usecase020.record_edit doc op).edit_history.length =
        doc.edit_history.length + 1 ∧
      (Usecase020.record_edit doc op).edit_history.getLast? = some op := by
  intro st sender message now doc op
  refine ⟨?_, ?_, ?_, ?_, ?_, ?_⟩
  · simp [Usecase020.add_message_to_log, List.take_left]
  · simp [Usecase020.add_message_to_log]
  · simp [Usecase020.add_message_to_log]
  · simp [Usecase020.record_edit, List.take_left]
  · simp [Usecase020.record_edit]
  · simp [Usecase020.record_edit]

/-- Completion of a guarded query loop: when the handler set covers
every exception the invocations raise, the loop visits all queries and
produces one printed line per query. -/
theorem runQueryLoop_ok {σ : Type} (handles : PyExc → Bool)
    (invoke : σ → Except PyExc String) :
    ∀ queries : List σ,
      (∀ q ∈ queries, ∀ e, invoke q = Except.error e → handles e = true) →
      ∃ outs, runQueryLoop handles invoke queries = Except.ok outs ∧
        outs.length = queries.length := by
  intro queries
  induction queries with
  | nil => exact fun _ => ⟨[], rfl, rfl⟩
  | cons q rest ih =>
    intro h
    obtain ⟨outs, houts, hlen⟩ := ih (fun x hx => h x (List.mem_cons_of_mem _ hx))
    cases hinv : invoke q with
    | ok r =>
      exact ⟨r :: outs, by simp [runQueryLoop, hinv, houts], by simp [hlen]⟩
    | error e =>
      have he : handles e = true := h q (List.mem_cons_self _ _) e hinv
      exact ⟨("Error: " ++ excName e) :: outs,
        by simp [runQueryLoop, hinv, he, houts], by simp [hlen]⟩

/-- C8 (counterexample): the claim asserts every script wraps its
top-level orchestrator invocation in an exception handler.  The
usecase-011 main invokes the graph with no handler at all, so any
exception propagates; and the step2.py loop names only five exception
classes, so an exception of any other class propagates out of the
query loop instead of printing and continuing. -/
theorem c8_exception_policy_counterexample :
    usecase011Handles (PyExc.otherExc "OpenAIError") = false ∧
    usecase011Run (Except.error (PyExc.otherExc "OpenAIError")) =
      Except.error (PyExc.otherExc "OpenAIError") ∧
    step2Handles (PyExc.otherExc "Exception") = false ∧
    runQueryLoop step2Handles
      (fun _ : String => Except.error (PyExc.otherExc "APIError")) ["query"] =
      Except.error (PyExc.otherExc "APIError") := by
  refine ⟨rfl, rfl, rfl, rfl⟩

/-- C8 (amended): the usecase-001 main wraps its invocation in a
handler catching every exception class, printing an error line and
continuing to the next fixed query; the step2.py loop does the same but
only for ValueError, KeyError, ConnectionError, TimeoutError and
RuntimeError, so it completes whenever every raised exception is among
those; the usecase-011 main passes the invocation outcome through
unguarded. -/
theorem c8_exception_policy_amended :
    (∀ (σ : Type) (invoke : σ → Except PyExc String) (queries : List σ),
      ∃ outs, runQueryLoop usecase001Handles invoke queries = Except.ok outs ∧
        outs.length = queries.length) ∧
    (∀ (σ : Type) (invoke : σ → Except PyExc String) (queries : List σ),
      (∀ q ∈ queries, ∀ e, invoke q = Except.error e → step2Handles e = true) →
      ∃ outs, runQueryLoop step2Handles invoke queries = Except.ok outs ∧
        outs.length = queries.length) ∧
    (∀ r : Except PyExc String, usecase011Run r = r) := by
  refine ⟨fun σ invoke queries => ?_, fun σ invoke queries h => ?_, fun r => rfl⟩
  · exact runQueryLoop_ok usecase001Handles invoke queries (fun _ _ _ _ => rfl)
  · exact runQueryLoop_ok step2Handles invoke queries h

/-- C8 (witness): the amended statement at a concrete two-query run in
which each invocation raises a handled ValueError. -/
theorem c8_exception_policy_amended_witness :
    ∃ outs, runQueryLoop step2Handles
      (fun _ : String => Except.error PyExc.valueError) ["a", "b"] =
        Except.ok outs ∧ outs.length = (["a", "b"] : List String).length :=
  c8_exception_policy_amended.2.1 String
    (fun _ => Except.error PyExc.valueError) ["a", "b"]
    (fun q _ e he => by cases he; rfl)

/-- Bound on the number of assess executions performed by the
refinement loop: from a state with iteration counter c, at most
1 + (2 - c) further assess passes run before the router branches to
finalize. -/
theorem refineLoop_count_le (ar rr : Nat → String) :
    ∀ (n : Nat) (st : Usecase013.AgentState) (k : Nat),
      3 - st.iteration_count ≤ n →
      (Usecase013.refineLoop ar rr k st).1 ≤ k + 1 + (2 - st.iteration_count) := by
  intro n
  induction n with
  | zero =>
    intro st k h0
    rw [Usecase013.refineLoop]
    split
    · omega
    · rename_i h
      simp only [Usecase013.should_continue_refining, Usecase013.assess_solution] at h
      split at h
      · exact absurd rfl h
      · rename_i hc
        push_neg at hc
        omega
  | succ n ih =>
    intro st k h0
    rw [Usecase013.refineLoop]
    split
    · omega
    · rename_i h
      have hcount :
          (Usecase013.refine_solution (rr k)
            (Usecase013.assess_solution (ar k) st)).iteration_count =
            st.iteration_count + 1 := rfl
      have hlt : st.iteration_count + 1 < 3 := by
        simp only [Usecase013.should_continue_refining, Usecase013.assess_solution] at h
        split at h
        · exact absurd rfl h
        · rename_i hc
          push_neg at hc
          omega
      have hrec := ih (Usecase013.refine_solution (rr k)
        (Usecase013.assess_solution (ar k) st)) (k + 1) (by omega)
      omega

/-- C9: the assess node increments the iteration counter by exactly one
on every pass, the router sends the run to finalize exactly when the
quality score is at least 8 or the counter is at least 3, and therefore
the assess/refine loop started from the initial state (counter zero)
executes the assess node at most three times, for every sequence of
model responses; totality of the loop function is its termination. -/
theorem c9_refinement_bounded :
    (∀ ar rr : Nat → String, ∀ problem initContent : String,
      (Usecase013.refineLoop ar rr 0
        (Usecase013.initial_solution problem initContent)).1 ≤ 3) ∧
    (∀ content : String, ∀ st : Usecase013.AgentState,
      (Usecase013.assess_solution content st).iteration_count =
        st.iteration_count + 1) ∧
    (∀ st : Usecase013.AgentState,
      Usecase013.should_continue_refining st = "finalize" ↔
        (8 ≤ st.quality_score ∨ 3 ≤ st.iteration_count)) := by
  refine ⟨fun ar rr p c => ?_, fun content st => rfl, fun st => ?_⟩
  · have h0 : (Usecase013.initial_solution p c).iteration_count = 0 := rfl
    have h := refineLoop_count_le ar rr 3 (Usecase013.initial_solution p c) 0
      (by rw [h0])
    rw [h0] at h
    omega
  · simp only [Usecase013.should_continue_refining]
    split
    · rename_i hc
      exact ⟨fun _ => hc, fun _ => rfl⟩
    · rename_i hc
      exact ⟨fun h => absurd h (by decide), fun h => absurd h hc⟩

/-- C2: for a non-empty generated sub-question list, the gathered
research_results mapping holds exactly one entry per sub-question (the
entry keyed by it, carrying that task result), regardless of the
completion order; and the total_time statistic of synthesize_findings
is non-negative and at least the execution_time of every sub-task,
whenever the clock reads respect program order (start recorded before
each task starts, each task finishing before synthesis). -/
theorem c2_scatter_gather_stats :
    ∀ (ρ : Type) (qs π : List String) (body : String → ρ)
      (sClock eClock : String → ℚ) (t0 t1 : ℚ),
      π.Perm qs → qs ≠ [] →
      (∀ q ∈ qs, t0 ≤ sClock q ∧ sClock q ≤ eClock q ∧ eClock q ≤ t1) →
      ∃ res,
        Usecase019.run_parallel_research qs π
          (Usecase019.research_task body sClock eClock) = Except.ok res ∧
        (∀ q ∈ qs, lookupKV res q = some (body q, eClock q - sClock q)) ∧
        (∀ q ∈ qs, (res.map Prod.fst).count q = 1) ∧
        (∀ k ∈ res.map Prod.fst, k ∈ qs) ∧
        0 ≤ (Usecase019.synthesize_stats t0 t1 res).total_time ∧
        (∀ q ∈ qs,
          Usecase019.subTime (Usecase019.synthesize_stats t0 t1 res) q ≤
            (Usecase019.synthesize_stats t0 t1 res).total_time) := by
  intro ρ qs π body sClock eClock t0 t1 hperm hne hord
  have hlen : qs.length ≠ 0 := fun h => hne (List.length_eq_zero.1 h)
  refine ⟨Usecase019.gatherResults π (Usecase019.research_task body sClock eClock),
    ?_, ?_, ?_, ?_, ?_, ?_⟩
  · simp only [Usecase019.run_parallel_research, Usecase019.maxWorkers]
    rw [if_neg hlen]
  · intro q hq
    exact gather_lookup π _ q (hperm.mem_iff.2 hq)
  · intro q hq
    have hl := gather_lookup π (Usecase019.research_task body sClock eClock) q
      (hperm.mem_iff.2 hq)
    exact List.count_eq_one_of_mem (gather_nodup π _)
      (List.mem_map_of_mem Prod.fst (lookupKV_mem hl))
  · intro k hk
    exact hperm.mem_iff.1 (gather_keys π _ k hk)
  · obtain ⟨q, hq⟩ := List.exists_mem_of_ne_nil qs hne
    obtain ⟨ha, hb, hc⟩ := hord q hq
    simp only [Usecase019.synthesize_stats]
    linarith
  · intro q hq
    obtain ⟨ha, hb, hc⟩ := hord q hq
    have hl := gather_lookup π (Usecase019.research_task body sClock eClock) q
      (hperm.mem_iff.2 hq)
    simp only [Usecase019.subTime, Usecase019.synthesize_stats]
    rw [show (Usecase019.gatherResults π
        (Usecase019.research_task body sClock eClock)).map
          (fun p => (p.1, p.2.2)) =
      (Usecase019.gatherResults π
        (Usecase019.research_task body sClock eClock)).map
          (fun p => (p.1, (fun v : ρ × ℚ => v.2) p.2)) from rfl,
      lookupKV_map_snd, hl]
    simp only [Option.map_some', Option.getD_some, Usecase019.research_task]
    linarith

/-- C2 (witness): the statement at a concrete two-question run whose
completion order is reversed. -/
theorem c2_scatter_gather_stats_witness :
    ∃ res,
      Usecase019.run_parallel_research ["alpha", "beta"] ["beta", "alpha"]
        (Usecase019.research_task (fun q => q) (fun _ => (1 : ℚ))
          (fun _ => (2 : ℚ))) = Except.ok res ∧
      (∀ q ∈ (["alpha", "beta"] : List String),
        (res.map Prod.fst).count q = 1) ∧
      0 ≤ (Usecase019.synthesize_stats (0 : ℚ) (3 : ℚ) res).total_time := by
  obtain ⟨res, h1, _, h3, _, h5, _⟩ :=
    c2_scatter_gather_stats String ["alpha", "beta"] ["beta", "alpha"]
      (fun q => q) (fun _ => (1 : ℚ)) (fun _ => (2 : ℚ)) 0 3
      (by decide) (by decide)
      (fun q _ => ⟨by norm_num, by norm_num, by norm_num⟩)
  exact ⟨res, h1, h3, h5⟩

/-- C6: for a non-empty sub-question list, the worker pool of
run_parallel_research is sized to exactly the number of sub-tasks, that
size is positive, every submitted sub-question has its awaited result
present in the gathered mapping keyed by the sub-question itself, and
the mapping read out is identical for any two completion orders. -/
theorem c6_worker_pool_and_completion_order :
    ∀ (α : Type) (qs π1 π2 : List String) (task : String → α),
      π1.Perm qs → π2.Perm qs → qs ≠ [] →
      Usecase019.maxWorkers qs = qs.length ∧
      0 < Usecase019.maxWorkers qs ∧
      (∀ q ∈ qs, lookupKV (Usecase019.gatherResults π1 task) q = some (task q)) ∧
      (∀ q, lookupKV (Usecase019.gatherResults π1 task) q =
        lookupKV (Usecase019.gatherResults π2 task) q) := by
  intro α qs π1 π2 task h1 h2 hne
  refine ⟨rfl, ?_, ?_, ?_⟩
  · exact List.length_pos.2 hne
  · intro q hq
    exact gather_lookup π1 task q (h1.mem_iff.2 hq)
  · intro q
    by_cases hq : q ∈ qs
    · rw [gather_lookup π1 task q (h1.mem_iff.2 hq),
        gather_lookup π2 task q (h2.mem_iff.2 hq)]
    · rw [gather_lookup_not_mem π1 task q (fun hc => hq (h1.mem_iff.1 hc)),
        gather_lookup_not_mem π2 task q (fun hc => hq (h2.mem_iff.1 hc))]

/-- C6 (witness): the statement at a concrete two-question list with
two different completion orders. -/
theorem c6_worker_pool_and_completion_order_witness :
    Usecase019.maxWorkers (["a", "b"] : List String) = 2 ∧
    lookupKV (Usecase019.gatherResults ["b", "a"] (fun q => q ++ "!")) "a" =
      some "a!" ∧
    (∀ q, lookupKV (Usecase019.gatherResults ["b", "a"] (fun q => q ++ "!")) q =
      lookupKV (Usecase019.gatherResults ["a", "b"] (fun q => q ++ "!")) q) := by
  obtain ⟨h1, _, h3, h4⟩ :=
    c6_worker_pool_and_completion_order String ["a", "b"] ["b", "a"] ["a", "b"]
      (fun q => q ++ "!") (by decide) (by decide) (by decide)
  exact ⟨h1, h3 "a" (by decide), h4⟩
